import Mathlib

/-!
Shallow embedding of the livestream-server repository (Python) in Lean 4.

The embedding mirrors, definition by definition:
- `src/lib/config.py` — source-type detection and the quality knobs;
- `src/services/broadcaster.py` — FFmpeg input/output argument synthesis;
- `src/services/connection.py` — the client queue (drop policy) and the
  connection manager (admission, registry, stats);
- `src/services/handlers.py` — the stream handler response and the stats
  endpoint payload;
- `src/main.py` — static-file serving with path normalization.

Conventions: Python `str` becomes `String`; media chunks are opaque and are
also modelled as `String` (only their length and identity matter); Python
`float` arithmetic is modelled over `ℚ`; Python's banker's rounding
(`round`) is `pyRound`.  Wall-clock fields (`connected_at`, `last_activity`)
carry no logic used by any claim and are omitted from the state records.
-/

namespace Livestream

/-- ASCII lower-casing of one character (Python `str.lower()` on the ASCII
strings the code compares against). -/
def charLower (c : Char) : Char :=
  if 'A' ≤ c ∧ c ≤ 'Z' then Char.ofNat (c.toNat + 32) else c

/-- ASCII lower-casing of a string. -/
def lowerStr (s : String) : String := String.mk (s.toList.map charLower)

/-- Prefix test on strings (Python `str.startswith`), by structural recursion
on the character lists. -/
def strStartsWith (s pre : String) : Bool :=
  pre.toList.isPrefixOf s.toList

/-- Membership of `needle` as a contiguous substring of `hay`, modelling
Python's `needle in hay`. -/
def listContainsSub (needle : List Char) : List Char → Bool
  | [] => needle.isEmpty
  | c :: cs => needle.isPrefixOf (c :: cs) || listContainsSub needle cs

/-- String-level substring test (Python `in`). -/
def strContains (hay needle : String) : Bool :=
  listContainsSub needle.toList hay.toList

/-- Split a character list at every occurrence of `sep` (Python
`str.split(sep)` for a one-character separator; the empty string yields
`[""]`). -/
def splitChar (sep : Char) : List Char → List (List Char)
  | [] => [[]]
  | c :: cs =>
      let rest := splitChar sep cs
      if c = sep then [] :: rest
      else
        match rest with
        | h :: t => (c :: h) :: t
        | [] => [[c]]

/-- String-level split at a one-character separator. -/
def strSplitOn (s : String) (sep : Char) : List String :=
  (splitChar sep s.toList).map String.mk

/-- Decimal digit character. -/
def digitChar (d : ℕ) : Char := Char.ofNat (48 + d)

/-- Decimal digits of a natural number (by fuel, structurally reducible). -/
def natToStrGo : ℕ → ℕ → List Char
  | 0, _ => []
  | fuel + 1, n =>
      if n < 10 then [digitChar n]
      else natToStrGo fuel (n / 10) ++ [digitChar (n % 10)]

/-- Decimal rendering of a natural number (Python `str(n)` for `n ≥ 0`). -/
def natToStr (n : ℕ) : String := String.mk (natToStrGo (n + 1) n)

/-- Python `round` on a rational: round half to even (banker's rounding). -/
def pyRound (x : ℚ) : ℤ :=
  if x - ⌊x⌋ < 1/2 then ⌊x⌋
  else if 1/2 < x - ⌊x⌋ then ⌊x⌋ + 1
  else if ⌊x⌋ % 2 = 0 then ⌊x⌋ else ⌊x⌋ + 1

/-- SourceType from `src/lib/config.py`: type of video source for FFmpeg
configuration. -/
inductive SourceType where
  | FILE
  | LIVE_STREAM
  | DEVICE
  | GROWING_FILE
deriving DecidableEq, Repr

/-- Protocol scheme list from `detect_source_type` in `src/lib/config.py`. -/
def protoSchemes : List String :=
  ["rtsp://", "rtmp://", "http://", "https://", "srt://", "udp://", "tcp://", "rtp://"]

/-- Embedding of `detect_source_type` (`src/lib/config.py`).  The ambient
`GROWING_FILE` environment-variable hint is passed as the boolean
`growingEnv` (true when the variable is one of "1", "true", "yes"). -/
def detectSourceType (growingEnv : Bool) (path : String) : SourceType :=
  let pathLower := lowerStr path
  if protoSchemes.any (fun proto => strStartsWith pathLower proto) then
    SourceType.LIVE_STREAM
  else if strStartsWith pathLower "avfoundation:" then
    SourceType.DEVICE
  else if strStartsWith path "/dev/video" then
    SourceType.DEVICE
  else if strContains pathLower "video=" || strStartsWith pathLower "dshow:" then
    SourceType.DEVICE
  else if growingEnv then
    SourceType.GROWING_FILE
  else
    SourceType.FILE

/-- Source-type rules as the spec words them (ordered: URL schemes, then
device patterns, then the environment override, then FILE), for comparison
with `detectSourceType` as embedded from the code. -/
def sourceTypeSpec (growingEnv : Bool) (path : String) : SourceType :=
  if protoSchemes.any (fun proto => strStartsWith (lowerStr path) proto) then
    SourceType.LIVE_STREAM
  else if strStartsWith (lowerStr path) "avfoundation:"
      || strStartsWith path "/dev/video"
      || strContains (lowerStr path) "video="
      || strStartsWith (lowerStr path) "dshow:" then
    SourceType.DEVICE
  else if growingEnv then SourceType.GROWING_FILE
  else SourceType.FILE

/-- Embedding of the `VideoConfig` dataclass (`src/lib/config.py`), with the
dataclass defaults. -/
structure VideoConfig where
  file_path : String := "video.mp4"
  fps : ℕ := 30
  jpeg_quality : ℤ := 5
  frame_buffer_size : ℕ := 2
  resolution : Option String := none
  quality : Option ℚ := none
deriving DecidableEq, Repr

namespace VideoConfig

/-- Property `VideoConfig.source_type`. -/
def sourceType (cfg : VideoConfig) (growingEnv : Bool) : SourceType :=
  detectSourceType growingEnv cfg.file_path

/-- Property `VideoConfig.is_live_source`: true if source is live (no
pacing/looping needed). -/
def isLiveSource (cfg : VideoConfig) (growingEnv : Bool) : Bool :=
  cfg.sourceType growingEnv = SourceType.LIVE_STREAM
    || cfg.sourceType growingEnv = SourceType.DEVICE

/-- Property `VideoConfig.can_loop`: true if source can be looped. -/
def canLoop (cfg : VideoConfig) (growingEnv : Bool) : Bool :=
  cfg.sourceType growingEnv = SourceType.FILE

/-- Property `VideoConfig.effective_jpeg_quality`: FFmpeg `-q:v` value
(2 = best, 31 = worst); `round(31 - q * 29)` when `quality` is set. -/
def effectiveJpegQuality (cfg : VideoConfig) : ℤ :=
  match cfg.quality with
  | some quality =>
      let q := max 0 (min 1 quality)
      pyRound (31 - q * 29)
  | none => cfg.jpeg_quality

/-- Property `VideoConfig.effective_scale`: resolution scale factor
`0.25 + q * 0.75` when `quality` is set, `none` otherwise. -/
def effectiveScale (cfg : VideoConfig) : Option ℚ :=
  match cfg.quality with
  | some quality =>
      let q := max 0 (min 1 quality)
      some (0.25 + q * 0.75)
  | none => none

end VideoConfig

/-- Embedding of the `AudioConfig` dataclass (`src/lib/config.py`). -/
structure AudioConfig where
  sample_rate : ℕ := 44100
  channels : ℕ := 2
  bits_per_sample : ℕ := 16
  buffer_size : ℕ := 10
deriving DecidableEq, Repr

namespace AudioConfig

/-- Property `AudioConfig.bytes_per_sample`. -/
def bytesPerSample (cfg : AudioConfig) : ℕ := cfg.bits_per_sample / 8

/-- Property `AudioConfig.byte_rate`. -/
def byteRate (cfg : AudioConfig) : ℕ :=
  cfg.sample_rate * cfg.channels * cfg.bytesPerSample

end AudioConfig

/-! FFmpeg argument synthesis from `src/services/broadcaster.py`. -/

/-- Characters of `s` after the first colon: Python `s.split(":", 1)[1]`
(callers guarantee a colon is present). -/
def afterFirstColon (s : String) : String :=
  String.mk ((s.toList.dropWhile (fun c => c ≠ ':')).drop 1)

/-- Characters of `s` before the first colon: Python `s.split(":", 1)[0]`. -/
def beforeFirstColon (s : String) : String :=
  String.mk (s.toList.takeWhile (fun c => c ≠ ':'))

/-- User-Agent string from `MediaBroadcaster._build_input_args`
(`src/services/broadcaster.py`), the three adjacent literals joined. -/
def browserUserAgent : String :=
  "Mozilla/5.0 (Macintosh; Intel Mac OS X 10_15_7) AppleWebKit/537.36 (KHTML, like Gecko) Chrome/131.0.0.0 Safari/537.36"

/-- Device-format portion of `MediaBroadcaster._build_input_args`: returns the
extra arguments and the (possibly stripped) input path.  Mirrors the
`if source_type == SourceType.DEVICE:` block, including the avfoundation
device-spec split and the v4l2 framerate. -/
def deviceInputArgs (st : SourceType) (path : String) (fps : ℕ)
    (audioOnly : Bool) : List String × String :=
  if st = SourceType.DEVICE then
    if strStartsWith path "avfoundation:" then
      let deviceSpec := afterFirstColon path
      if strContains deviceSpec ":" then
        let videoDev := beforeFirstColon deviceSpec
        let audioDev := afterFirstColon deviceSpec
        if audioOnly then (["-f", "avfoundation"], ":" ++ audioDev)
        else (["-f", "avfoundation"], videoDev)
      else
        (["-f", "avfoundation"], deviceSpec)
    else if strStartsWith path "/dev/video" then
      if audioOnly then (["-f", "v4l2"], path)
      else (["-f", "v4l2", "-framerate", natToStr fps], path)
    else ([], path)
  else ([], path)

/-- Embedding of `MediaBroadcaster._build_input_args`
(`src/services/broadcaster.py`). -/
def buildInputArgs (cfg : VideoConfig) (growingEnv : Bool)
    (audioOnly : Bool) : List String :=
  let st := cfg.sourceType growingEnv
  let reArgs : List String :=
    if cfg.isLiveSource growingEnv then [] else ["-re"]
  let loopArgs : List String :=
    if cfg.canLoop growingEnv then ["-stream_loop", "-1"] else []
  let (devArgs, path) := deviceInputArgs st cfg.file_path cfg.fps audioOnly
  let rtspArgs : List String :=
    if st = SourceType.LIVE_STREAM ∧ strStartsWith (lowerStr path) "rtsp://" then
      ["-rtsp_transport", "tcp"]
    else []
  let uaArgs : List String :=
    if st = SourceType.LIVE_STREAM
        ∧ (strStartsWith (lowerStr path) "http://"
            || strStartsWith (lowerStr path) "https://") then
      ["-user_agent", browserUserAgent]
    else []
  reArgs ++ loopArgs ++ devArgs ++ rtspArgs ++ uaArgs ++ ["-i", path]

/-- Fixed four-decimal rendering of a nonnegative rational, modelling the
Python format `f"{scale:.4f}"` (decimal rounding half to even). -/
def fixed4 (x : ℚ) : String :=
  let n := (pyRound (x * 10000)).toNat
  let fracDigits := natToStrGo (n % 10000 + 1) (n % 10000)
  let pad := List.replicate (4 - fracDigits.length) '0'
  natToStr (n / 10000) ++ "." ++ String.mk (pad ++ fracDigits)

/-- Explicit-resolution branch of `MediaBroadcaster._create_video_process`:
Python `w, h = resolution.lower().split("x")` succeeds only with exactly two
parts; on `ValueError` the code logs a warning and adds no arguments. -/
def resolutionScaleArgs (resolution : Option String) : List String :=
  match resolution with
  | none => []
  | some r =>
      match strSplitOn (lowerStr r) 'x' with
      | [w, h] => ["-vf", "scale=" ++ w ++ ":" ++ h]
      | _ => []

/-- Scale-filter portion of `MediaBroadcaster._create_video_process`
(`src/services/broadcaster.py`): the quality-derived factor is used when
`effective_scale` is set and `< 1.0`; otherwise the explicit resolution. -/
def outputScaleArgs (cfg : VideoConfig) : List String :=
  match cfg.effectiveScale with
  | some scale =>
      if scale < 1 then
        ["-vf",
          "scale=trunc(iw*" ++ fixed4 scale ++ "/2)*2:trunc(ih*"
            ++ fixed4 scale ++ "/2)*2"]
      else resolutionScaleArgs cfg.resolution
  | none => resolutionScaleArgs cfg.resolution

/-! Client queues and the connection manager, from `src/services/connection.py`. -/

/-- StreamType from `src/services/connection.py`. -/
inductive StreamType where
  | VIDEO
  | AUDIO
deriving DecidableEq, Repr

/-- Embedding of the `ClientStats` dataclass.  The wall-clock fields
`connected_at` and `last_activity` carry no logic used here and are
omitted. -/
structure ClientStats where
  frames_sent : ℕ := 0
  bytes_sent : ℕ := 0
  frames_dropped : ℕ := 0
deriving DecidableEq, Repr

/-- Method `ClientStats.update`: update stats after sending data. -/
def ClientStats.update (st : ClientStats) (bytesCount : ℕ) : ClientStats :=
  { st with frames_sent := st.frames_sent + 1, bytes_sent := st.bytes_sent + bytesCount }

/-- Embedding of `ClientQueue` (`src/services/connection.py`): the wrapped
`asyncio.Queue` contents (media chunks modelled as strings, front of the
list = head of the queue), its `maxsize`, the stream type, the stats and the
`_active` flag. -/
structure ClientQueue where
  queue : List String := []
  maxsize : ℕ := 2
  stream_type : StreamType := StreamType.VIDEO
  stats : ClientStats := {}
  active : Bool := true
deriving DecidableEq, Repr

namespace ClientQueue

/-- Embedding of `ClientQueue.put_nowait`: if the client is inactive, fail;
otherwise drain every queued element (counting each as dropped), then enqueue
the new item.  After the drain the queue is empty, so the inner
`asyncio.Queue.put_nowait` cannot raise `QueueFull` for any `maxsize` and the
`except` branch is unreachable. -/
def putNowait (cq : ClientQueue) (item : String) : ClientQueue × Bool :=
  if cq.active = false then (cq, false)
  else
    let dropped := cq.queue.length
    let stats1 :=
      if dropped > 0 then
        { cq.stats with frames_dropped := cq.stats.frames_dropped + dropped }
      else cq.stats
    let stats2 := stats1.update item.length
    ({ cq with queue := [item], stats := stats2 }, true)

/-- Method `ClientQueue.close`: mark this queue as closed. -/
def close (cq : ClientQueue) : ClientQueue := { cq with active := false }

/-- Method `ClientQueue.qsize`. -/
def qsize (cq : ClientQueue) : ℕ := cq.queue.length

end ClientQueue

/-- Embedding of `ConnectionManager` (`src/services/connection.py`).  The two
client dicts become association lists in insertion order; Python's `id(self)`
(unique among live objects) is modelled by the fresh counter `nextId`. -/
structure ConnectionManager where
  video_clients : List (ℕ × ClientQueue) := []
  audio_clients : List (ℕ × ClientQueue) := []
  max_clients : ℕ := 100
  nextId : ℕ := 0
deriving DecidableEq, Repr

namespace ConnectionManager

/-- Property `ConnectionManager.video_client_count`. -/
def videoClientCount (m : ConnectionManager) : ℕ := m.video_clients.length

/-- Property `ConnectionManager.audio_client_count`. -/
def audioClientCount (m : ConnectionManager) : ℕ := m.audio_clients.length

/-- Property `ConnectionManager.total_client_count`. -/
def totalClientCount (m : ConnectionManager) : ℕ :=
  m.videoClientCount + m.audioClientCount

/-- Embedding of `ConnectionManager._register_client`: atomic admission — if
the live client count has reached `max_clients`, reject; otherwise allocate a
queue, give it a fresh id, insert it into the registry of its stream type and
return the id. -/
def registerClient (m : ConnectionManager) (t : StreamType) (maxsize : ℕ) :
    ConnectionManager × Option ℕ :=
  if m.totalClientCount ≥ m.max_clients then (m, none)
  else
    let client : ClientQueue := { maxsize := maxsize, stream_type := t }
    let cid := m.nextId
    match t with
    | StreamType.VIDEO =>
        ({ m with video_clients := m.video_clients ++ [(cid, client)],
                  nextId := cid + 1 }, some cid)
    | StreamType.AUDIO =>
        ({ m with audio_clients := m.audio_clients ++ [(cid, client)],
                  nextId := cid + 1 }, some cid)

/-- Whether a client id is currently registered for the given stream type. -/
def hasClient (m : ConnectionManager) (t : StreamType) (cid : ℕ) : Bool :=
  match t with
  | StreamType.VIDEO => m.video_clients.any (fun p => p.1 = cid)
  | StreamType.AUDIO => m.audio_clients.any (fun p => p.1 = cid)

/-- Embedding of `ConnectionManager.unregister_client`: close the queue and
pop it from its registry; `dict.pop(id, None)` is idempotent. -/
def unregisterClient (m : ConnectionManager) (t : StreamType) (cid : ℕ) :
    ConnectionManager :=
  match t with
  | StreamType.VIDEO =>
      { m with video_clients := m.video_clients.filter (fun p => p.1 ≠ cid) }
  | StreamType.AUDIO =>
      { m with audio_clients := m.audio_clients.filter (fun p => p.1 ≠ cid) }

/-- Embedding of `ConnectionManager.broadcast_video`: attempt `put_nowait` on
every video client, keep the mutated queues, pop the dead (inactive) ones, and
return the count of successful enqueues. -/
def broadcastVideo (m : ConnectionManager) (frame : String) :
    ConnectionManager × ℕ :=
  let results := m.video_clients.map (fun p => (p.1, p.2.putNowait frame))
  let kept := results.filterMap
    (fun r => if r.2.2 then some (r.1, r.2.1) else none)
  ({ m with video_clients := kept },
    (results.filter (fun r => r.2.2)).length)

/-- Total `frames_dropped` over all client queues, as summed by
`ConnectionManager.get_stats`. -/
def totalDropped (m : ConnectionManager) : ℕ :=
  ((m.video_clients ++ m.audio_clients).map
    (fun p => p.2.stats.frames_dropped)).sum

end ConnectionManager

/-! Stats endpoint payload, from `src/services/handlers.py` and
`src/services/broadcaster.py`. -/

/-- JSON values, for the bodies the server serializes with `json.dumps`.
Numbers keep their Lean type (`ℤ` for ints, `ℚ` for floats). -/
inductive Json where
  | str (s : String)
  | int (n : ℤ)
  | rat (q : ℚ)
  | bool (b : Bool)
  | obj (fields : List (String × Json))

/-- Keys of a JSON object (empty for non-objects). -/
def jsonKeys : Json → List String
  | Json.obj fields => fields.map Prod.fst
  | _ => []

/-- Field lookup in a JSON object. -/
def jsonGet (j : Json) (key : String) : Option Json :=
  match j with
  | Json.obj fields => fields.lookup key
  | _ => none

/-- Whether a JSON value is a boolean (used to check for flag fields). -/
def jsonIsBool : Json → Bool
  | Json.bool _ => true
  | _ => false

/-- Whether a JSON object has any boolean-valued field. -/
def jsonHasBoolField : Json → Bool
  | Json.obj fields => fields.any (fun kv => jsonIsBool kv.2)
  | _ => false

/-- Embedding of `ConnectionManager.get_stats`: connection statistics
including backpressure metrics. -/
def ConnectionManager.getStats (m : ConnectionManager) : Json :=
  Json.obj [
    ("video_clients", Json.int m.videoClientCount),
    ("audio_clients", Json.int m.audioClientCount),
    ("total_clients", Json.int m.totalClientCount),
    ("max_clients", Json.int m.max_clients),
    ("frames_dropped", Json.int m.totalDropped)]

/-- BroadcasterState from `src/services/broadcaster.py`. -/
inductive BroadcasterState where
  | STOPPED
  | STARTING
  | RUNNING
  | STOPPING
  | ERROR
deriving DecidableEq, Repr

/-- The `value` strings of `BroadcasterState`. -/
def BroadcasterState.value : BroadcasterState → String
  | BroadcasterState.STOPPED => "stopped"
  | BroadcasterState.STARTING => "starting"
  | BroadcasterState.RUNNING => "running"
  | BroadcasterState.STOPPING => "stopping"
  | BroadcasterState.ERROR => "error"

/-- Embedding of the counters of the `StreamStats` dataclass
(`src/services/broadcaster.py`).  `start_time` is wall-clock; the derived
`elapsed` is passed separately where needed. -/
structure StreamStats where
  video_frames : ℕ := 0
  audio_chunks : ℕ := 0
  audio_bytes_sent : ℕ := 0
deriving DecidableEq, Repr

/-- Method `StreamStats.video_timestamp`: frame count over fps. -/
def StreamStats.videoTimestamp (st : StreamStats) (vcfg : VideoConfig) : ℚ :=
  (st.video_frames : ℚ) / (vcfg.fps : ℚ)

/-- Method `StreamStats.audio_timestamp`: bytes sent over the byte rate,
zero when the byte rate is zero. -/
def StreamStats.audioTimestamp (st : StreamStats) (acfg : AudioConfig) : ℚ :=
  if acfg.byteRate = 0 then 0
  else (st.audio_bytes_sent : ℚ) / (acfg.byteRate : ℚ)

/-- Python `round(x, ndigits)` on a rational (decimal half-to-even). -/
def pyRoundTo (ndigits : ℕ) (x : ℚ) : ℚ :=
  (pyRound (x * (10 : ℚ) ^ ndigits) : ℚ) / (10 : ℚ) ^ ndigits

/-- Embedding of the `stats` dict built by `StatsHandler.handle`
(`src/services/handlers.py`).  `broadcaster.is_running` is
`state == RUNNING`; `elapsed` is the wall-clock value of
`StreamStats.elapsed` at the time of the request. -/
def statsPayload (state : BroadcasterState) (st : StreamStats) (elapsed : ℚ)
    (m : ConnectionManager) (vcfg : VideoConfig) (acfg : AudioConfig) : Json :=
  Json.obj [
    ("broadcaster", Json.obj [
      ("state", Json.str state.value),
      ("running", Json.bool (state = BroadcasterState.RUNNING))]),
    ("stream", Json.obj [
      ("elapsed_seconds", Json.rat (pyRoundTo 2 elapsed)),
      ("video_frames", Json.int st.video_frames),
      ("audio_chunks", Json.int st.audio_chunks),
      ("video_timestamp", Json.rat (pyRoundTo 3 (st.videoTimestamp vcfg))),
      ("audio_timestamp", Json.rat (pyRoundTo 3 (st.audioTimestamp acfg))),
      ("sync_drift",
        Json.rat (pyRoundTo 3 (st.videoTimestamp vcfg - st.audioTimestamp acfg)))]),
    ("connections", m.getStats),
    ("config", Json.obj [
      ("video_fps", Json.int vcfg.fps),
      ("audio_sample_rate", Json.int acfg.sample_rate)])]

/-- Response of `StatsHandler.handle`: status, content type, and payload
(a `content-length` and `access-control-allow-origin: *` header are also
sent). -/
structure StatsResponse where
  status : ℕ
  contentType : String
  payload : Json

/-- Embedding of `StatsHandler.handle` (`src/services/handlers.py`). -/
def statsResponse (state : BroadcasterState) (st : StreamStats) (elapsed : ℚ)
    (m : ConnectionManager) (vcfg : VideoConfig) (acfg : AudioConfig) :
    StatsResponse :=
  { status := 200,
    contentType := "application/json",
    payload := statsPayload state st elapsed m vcfg acfg }

/-- Admission head of `VideoStreamHandler.handle` (`src/services/handlers.py`):
register a client with `maxsize = config.video.frame_buffer_size`; when
registration is rejected the handler sends a `503` error, otherwise it starts
the `200` streaming response. -/
def videoHandleStatus (m : ConnectionManager) (cfg : VideoConfig) : ℕ :=
  match (m.registerClient StreamType.VIDEO cfg.frame_buffer_size).2 with
  | none => 503
  | some _ => 200

/-! Static-file serving, from `StreamingApp._serve_static` in `src/main.py`. -/

/-- Path normalization used by `Path.resolve()` (no symlinks modelled): the
accumulator holds the resolved segments in reverse; `""` and `"."` are
skipped, `".."` pops one segment (staying at the root when empty). -/
def resolveGo (acc : List String) : List String → List String
  | [] => acc.reverse
  | s :: rest =>
      if s = "" ∨ s = "." then resolveGo acc rest
      else if s = ".." then resolveGo acc.tail rest
      else resolveGo (s :: acc) rest

/-- Render an absolute path (list of segments) as a string, as `str(path)`
does for an absolute `Path`. -/
def pathToStr (segs : List String) : String :=
  if segs.isEmpty then "/"
  else segs.foldl (fun acc s => acc ++ "/" ++ s) ""

/-- Extension of a file name with its dot, modelling `Path.suffix`: the part
from the last dot, provided the dot is neither the first nor the last
character of the name. -/
def fileSuffix (name : String) : String :=
  let cs := name.toList
  match cs.reverse.findIdx? (fun c => c = '.') with
  | none => ""
  | some j =>
      let i := cs.length - 1 - j
      if 0 < i ∧ i < cs.length - 1 then String.mk (cs.drop i) else ""

/-- MIME_TYPES table from `src/main.py`. -/
def MIME_TYPES : List (String × String) :=
  [(".html", "text/html; charset=utf-8"),
   (".js", "application/javascript; charset=utf-8"),
   (".css", "text/css; charset=utf-8"),
   (".json", "application/json"),
   (".png", "image/png"),
   (".svg", "image/svg+xml"),
   (".ico", "image/x-icon")]

/-- Response of the static-file handler: status, content type, and which
resolved file (if any) was read and served. -/
structure StaticResponse where
  status : ℕ
  contentType : String
  servedFile : Option (List String)
deriving DecidableEq, Repr

/-- Whether `file` lies strictly inside directory `dir` (segment-wise). -/
def isWithinDir (dir file : List String) : Bool :=
  dir.isPrefixOf file && decide (dir.length < file.length)

/-- Embedding of `StreamingApp._serve_static` (`src/main.py`).  `pub` is the
resolved `PUBLIC_DIR` as segments; `files` is the set of existing regular
files of the filesystem, as resolved segment paths.  Mirrors the code: map
`/` to `index.html`, strip leading slashes, resolve `PUBLIC_DIR / filename`,
reject with `403` when the resolved string does not start with the
`PUBLIC_DIR` string, `404` when the file does not exist, else `200` with the
content type from `MIME_TYPES` (default `application/octet-stream`). -/
def serveStatic (pub : List String) (files : List (List String))
    (path : String) : StaticResponse :=
  let filename :=
    if path = "/" then "index.html"
    else String.mk (path.toList.dropWhile (fun c => c = '/'))
  let filePath := resolveGo [] (pub ++ strSplitOn filename '/')
  if ¬ strStartsWith (pathToStr filePath) (pathToStr pub) then
    { status := 403, contentType := "text/plain", servedFile := none }
  else if ¬ files.contains filePath then
    { status := 404, contentType := "text/plain", servedFile := none }
  else
    let ext := lowerStr (fileSuffix (filePath.getLastD ""))
    { status := 200,
      contentType := (MIME_TYPES.lookup ext).getD "application/octet-stream",
      servedFile := some filePath }

/-! The `/stream` endpoint handler.  `src/main.py` routes `/stream` to
`HttpStreamHandler.handle`, whose definition is not in `src/` (only this
caller and the fMP4 player in `src/lib/templates.py` refer to it), so its
protocol is modelled from the spec. -/

/-- ASGI message as emitted by a handler: a response start (status plus
headers) or a body chunk with its `more_body` flag. -/
inductive AsgiMessage where
  | start (status : ℕ) (headers : List (String × String))
  | body (data : String) (moreBody : Bool)
deriving DecidableEq, Repr

/-- Concatenated body bytes of a message list. -/
def bodyBytes : List AsgiMessage → String
  | [] => ""
  | AsgiMessage.body data _ :: rest => data ++ bodyBytes rest
  | AsgiMessage.start _ _ :: rest => bodyBytes rest

/-- Concatenation of a list of byte strings. -/
def strJoin : List String → String
  | [] => ""
  | s :: rest => s ++ strJoin rest

/-- Headers of the successful `/stream` response (spec §4.3 step 2): no
`Content-Length` — the body is unbounded. -/
def streamHeaders : List (String × String) :=
  [("content-type", "video/mp4"),
   ("cache-control", "no-cache, no-store"),
   ("access-control-allow-origin", "*")]

/-- Modelled from the spec: `HttpStreamHandler.handle`, the `/stream`
endpoint handler missing from `src/` (referenced by the route table in
`src/main.py`).  Spec §4.3: on rejected admission reply `503 text/plain`;
otherwise send status `200` with `Content-Type: video/mp4`,
`Cache-Control: no-cache, no-store`, `Access-Control-Allow-Origin: *` and no
`Content-Length`; then, when the cached init segment arrives, write it as the
first body chunk, forward the media chunks, and finish with an empty final
frame (on init timeout the response terminates with no media bytes). -/
def httpStreamMessages (admitted : Bool) (initSeg : Option String)
    (chunks : List String) : List AsgiMessage :=
  if admitted = false then
    [AsgiMessage.start 503 [("content-type", "text/plain")],
     AsgiMessage.body "Server at capacity" false]
  else
    AsgiMessage.start 200 streamHeaders ::
    match initSeg with
    | none => [AsgiMessage.body "" false]
    | some seg =>
        AsgiMessage.body seg true ::
          (chunks.map (fun c => AsgiMessage.body c true)
            ++ [AsgiMessage.body "" false])

/-! Register/unregister traces over the connection manager, for the
admission invariant. -/

/-- One operation against the connection manager registry. -/
inductive ConnOp where
  | reg (t : StreamType) (maxsize : ℕ)
  | unreg (t : StreamType) (cid : ℕ)
deriving DecidableEq, Repr

/-- Result of running a trace: final manager plus counters — successful and
rejected registrations, and unregistrations that removed a live buffer
(`unregHit`) versus those that named no live buffer (`unregMiss`). -/
structure RunResult where
  mgr : ConnectionManager
  regOk : ℕ
  regRej : ℕ
  unregHit : ℕ
  unregMiss : ℕ
deriving DecidableEq, Repr

/-- Run a list of operations against the manager, counting outcomes. -/
def runOps (m : ConnectionManager) : List ConnOp → RunResult
  | [] => ⟨m, 0, 0, 0, 0⟩
  | ConnOp.reg t ms :: ops =>
      let step := m.registerClient t ms
      let r := runOps step.1 ops
      if step.2.isSome then { r with regOk := r.regOk + 1 }
      else { r with regRej := r.regRej + 1 }
  | ConnOp.unreg t cid :: ops =>
      let present := m.hasClient t cid
      let r := runOps (m.unregisterClient t cid) ops
      if present then { r with unregHit := r.unregHit + 1 }
      else { r with unregMiss := r.unregMiss + 1 }

/-- Number of unregister operations in a trace. -/
def numUnregs (ops : List ConnOp) : ℕ :=
  (ops.filter (fun op => match op with | ConnOp.unreg _ _ => true | _ => false)).length

/-- Registry well-formedness: every registered id is below the fresh-id
counter, ids are unique across both registries, and the live count respects
`max_clients`. -/
def MgrInv (m : ConnectionManager) : Prop :=
  (∀ p ∈ m.video_clients, p.1 < m.nextId)
    ∧ (∀ p ∈ m.audio_clients, p.1 < m.nextId)
    ∧ (m.video_clients.map Prod.fst ++ m.audio_clients.map Prod.fst).Nodup
    ∧ m.totalClientCount ≤ m.max_clients

instance (m : ConnectionManager) : Decidable (MgrInv m) := by
  unfold MgrInv; infer_instance

/-! Concrete inputs used by the counterexamples and witnesses below. -/

/-- A client queue holding one chunk, capacity 3 — not full. -/
def c2Queue : ClientQueue := { queue := ["a"], maxsize := 3 }

/-- A manager with `c2Queue` registered as its only video client. -/
def c2Manager : ConnectionManager := { video_clients := [(0, c2Queue)] }

/-- A client queue holding one chunk, capacity 2. -/
def c2WitnessQueue : ClientQueue := { queue := ["x"], maxsize := 2 }

/-- A client queue holding two chunks, capacity 5. -/
def c10WitnessQueue : ClientQueue := { queue := ["p", "q"], maxsize := 5 }

/-- Concrete stream counters for the stats counterexample. -/
def c8Stats : StreamStats :=
  { video_frames := 10, audio_chunks := 5, audio_bytes_sent := 100 }

/-- A concrete register/unregister trace: two admissions, one rejection at
capacity 2, one unregistration. -/
def c3Ops : List ConnOp :=
  [ConnOp.reg StreamType.VIDEO 2, ConnOp.reg StreamType.AUDIO 10,
   ConnOp.reg StreamType.VIDEO 2, ConnOp.unreg StreamType.VIDEO 0]

/-! Helper lemmas on the rounding function and the quality clamp. -/

theorem pyRound_intCast (n : ℤ) : pyRound ((n : ℚ)) = n := by
  have hf : ⌊((n : ℚ))⌋ = n := Int.floor_intCast n
  unfold pyRound
  rw [hf]
  have h : (n : ℚ) - n < 1/2 := by norm_num
  rw [if_pos h]

theorem floor_le_pyRound (x : ℚ) : ⌊x⌋ ≤ pyRound x := by
  unfold pyRound; split_ifs <;> omega

theorem pyRound_le_floor_add_one (x : ℚ) : pyRound x ≤ ⌊x⌋ + 1 := by
  unfold pyRound; split_ifs <;> omega

theorem pyRound_mono {x y : ℚ} (h : x ≤ y) : pyRound x ≤ pyRound y := by
  by_cases hf : ⌊x⌋ = ⌊y⌋
  · have hr : x - (⌊x⌋ : ℚ) ≤ y - (⌊x⌋ : ℚ) := by linarith
    unfold pyRound
    rw [← hf]
    split_ifs <;> first | omega | linarith
  · have hlt : ⌊x⌋ < ⌊y⌋ := lt_of_le_of_ne (Int.floor_mono h) hf
    calc pyRound x ≤ ⌊x⌋ + 1 := pyRound_le_floor_add_one x
      _ ≤ ⌊y⌋ := by omega
      _ ≤ pyRound y := floor_le_pyRound y

theorem clamp01_eq {q : ℚ} (h0 : 0 ≤ q) (h1 : q ≤ 1) : max 0 (min 1 q) = q := by
  rw [min_eq_right h1, max_eq_right h0]

/-! Claim C4: source-type classification and the derived predicates. -/

/-- C4.  Source classification follows the spec's ordered rules — URL schemes
(rtsp, rtmp, http, https, srt, udp, tcp, rtp) give LIVE_STREAM; avfoundation,
/dev/video, video= and dshow patterns give DEVICE; the GROWING_FILE
environment override (when no earlier rule matched) gives GROWING_FILE; all
other paths give FILE — and `is_live_source` holds exactly for LIVE_STREAM
and DEVICE while `can_loop` holds exactly for FILE. -/
theorem source_type_detection_C4 (growingEnv : Bool) (cfg : VideoConfig) :
    detectSourceType growingEnv cfg.file_path = sourceTypeSpec growingEnv cfg.file_path
    ∧ (cfg.isLiveSource growingEnv = true ↔
        cfg.sourceType growingEnv = SourceType.LIVE_STREAM
          ∨ cfg.sourceType growingEnv = SourceType.DEVICE)
    ∧ (cfg.canLoop growingEnv = true ↔
        cfg.sourceType growingEnv = SourceType.FILE) := by
  refine ⟨?_, ?_, ?_⟩
  · unfold detectSourceType sourceTypeSpec
    by_cases hA : protoSchemes.any
        (fun proto => strStartsWith (lowerStr cfg.file_path) proto) = true <;>
      by_cases hB : strStartsWith (lowerStr cfg.file_path) "avfoundation:" = true <;>
      by_cases hC : strStartsWith cfg.file_path "/dev/video" = true <;>
      by_cases hD : (strContains (lowerStr cfg.file_path) "video="
          || strStartsWith (lowerStr cfg.file_path) "dshow:") = true <;>
      simp_all
  · cases h : detectSourceType growingEnv cfg.file_path <;>
      simp [VideoConfig.isLiveSource, VideoConfig.sourceType, h]
  · cases h : detectSourceType growingEnv cfg.file_path <;>
      simp [VideoConfig.canLoop, VideoConfig.sourceType, h]

/-! Claim C6: the quality scalar's mapping to encoder quality and scale. -/

/-- C6 counterexample.  At quality `q = 0` the code's encoder quality value is
`round(31 − 29·q) = 31`, not `round(40 − 22·q) = 40` as the claim states. -/
theorem quality_mapping_C6_counterexample :
    ({ quality := some 0 } : VideoConfig).effectiveJpegQuality = 31
    ∧ pyRound (40 - 22 * 0) = 40
    ∧ (31 : ℤ) ≠ 40 := by
  refine ⟨?_, ?_, by decide⟩
  · simp only [VideoConfig.effectiveJpegQuality]
    rw [clamp01_eq le_rfl zero_le_one,
      show (31 : ℚ) - 0 * 29 = ((31 : ℤ) : ℚ) by norm_num, pyRound_intCast]
  · rw [show (40 : ℚ) - 22 * 0 = ((40 : ℤ) : ℚ) by norm_num, pyRound_intCast]

/-- C6 (amended).  For quality `q ∈ [0,1]` the derived encoder quality value
is `round(31 − 29·q)` (2 = best at q = 1, 31 = worst at q = 0) and the derived
scale factor is `0.25 + 0.75·q`; both are monotone in q — a higher q never
yields a worse (larger) encoder quality value nor a smaller scale. -/
theorem quality_mapping_C6 (q q' : ℚ) (h0 : 0 ≤ q) (h1 : q ≤ 1)
    (h0' : 0 ≤ q') (h1' : q' ≤ 1) (hqq : q ≤ q') :
    ({ quality := some q } : VideoConfig).effectiveJpegQuality = pyRound (31 - q * 29)
    ∧ ({ quality := some q } : VideoConfig).effectiveScale = some (0.25 + q * 0.75)
    ∧ ({ quality := some q' } : VideoConfig).effectiveJpegQuality
        ≤ ({ quality := some q } : VideoConfig).effectiveJpegQuality
    ∧ (∀ s s', ({ quality := some q } : VideoConfig).effectiveScale = some s →
        ({ quality := some q' } : VideoConfig).effectiveScale = some s' → s ≤ s') := by
  have hcq : max 0 (min 1 q) = q := clamp01_eq h0 h1
  have hcq' : max 0 (min 1 q') = q' := clamp01_eq h0' h1'
  refine ⟨?_, ?_, ?_, ?_⟩
  · simp only [VideoConfig.effectiveJpegQuality, hcq]
  · simp only [VideoConfig.effectiveScale, hcq]
  · simp only [VideoConfig.effectiveJpegQuality, hcq, hcq']
    exact pyRound_mono (by linarith)
  · intro s s' hs hs'
    simp only [VideoConfig.effectiveScale, hcq, Option.some.injEq] at hs
    simp only [VideoConfig.effectiveScale, hcq', Option.some.injEq] at hs'
    rw [← hs, ← hs']
    linarith

/-- C6 witness at `q = 0`, `q' = 1`. -/
theorem quality_mapping_C6_witness :
    ({ quality := some 0 } : VideoConfig).effectiveJpegQuality = pyRound (31 - 0 * 29)
    ∧ ({ quality := some 0 } : VideoConfig).effectiveScale = some (0.25 + 0 * 0.75)
    ∧ ({ quality := some 1 } : VideoConfig).effectiveJpegQuality
        ≤ ({ quality := some 0 } : VideoConfig).effectiveJpegQuality
    ∧ (∀ s s', ({ quality := some 0 } : VideoConfig).effectiveScale = some s →
        ({ quality := some 1 } : VideoConfig).effectiveScale = some s' → s ≤ s') :=
  quality_mapping_C6 0 1 le_rfl zero_le_one zero_le_one le_rfl zero_le_one

/-! Claim C5: the real-time pacing flag. -/

/-- C5 counterexample.  A remote HTTP source is classified LIVE_STREAM, and
the code builds its input arguments without the `-re` pacing flag — the claim
that every remote HTTP(S) source gets `-re` is false. -/
theorem pacing_flag_C5_counterexample :
    detectSourceType false "http://h/v.mp4" = SourceType.LIVE_STREAM
    ∧ "-re" ∉ buildInputArgs { file_path := "http://h/v.mp4" } false false :=
  ⟨by decide, by decide⟩

/-- Possible heads of the device-format argument block. -/
theorem deviceInputArgs_fst_head (st : SourceType) (path : String) (fps : ℕ)
    (audioOnly : Bool) :
    (deviceInputArgs st path fps audioOnly).1 = []
      ∨ (deviceInputArgs st path fps audioOnly).1.head? = some "-f" := by
  unfold deviceInputArgs
  by_cases h1 : st = SourceType.DEVICE
  · by_cases h2 : strStartsWith path "avfoundation:" = true
    · by_cases h3 : strContains (afterFirstColon path) ":" = true
      · by_cases h4 : audioOnly = true <;> simp [h1, h2, h3, h4]
      · simp [h1, h2, h3]
    · by_cases h3 : strStartsWith path "/dev/video" = true
      · by_cases h4 : audioOnly = true <;> simp [h1, h2, h3, h4]
      · simp [h1, h2, h3]
  · simp [h1]

/-- Live sources never get the pacing flag at the head of the argument
list. -/
theorem buildInputArgs_head_of_live (cfg : VideoConfig)
    (growingEnv audioOnly : Bool) (hlive : cfg.isLiveSource growingEnv = true) :
    (buildInputArgs cfg growingEnv audioOnly).head? ≠ some "-re" := by
  have hcl : cfg.canLoop growingEnv = false := by
    rcases hst : cfg.sourceType growingEnv with _ | _ | _ | _ <;>
      simp_all [VideoConfig.isLiveSource, VideoConfig.canLoop]
  unfold buildInputArgs
  rcases hd : deviceInputArgs (cfg.sourceType growingEnv) cfg.file_path
      cfg.fps audioOnly with ⟨dargs, path⟩
  rcases deviceInputArgs_fst_head (cfg.sourceType growingEnv) cfg.file_path
      cfg.fps audioOnly with hda | hda
  · rw [hd] at hda
    replace hda : dargs = [] := hda
    subst hda
    simp [hlive, hcl, hd]
    try split_ifs <;> simp
  · rw [hd] at hda
    replace hda : dargs.head? = some "-f" := hda
    cases dargs with
    | nil => simp at hda
    | cons a t =>
        simp only [List.head?_cons, Option.some.injEq] at hda
        subst hda
        simp [hlive, hcl, hd]

/-- Non-live sources get the pacing flag first. -/
theorem buildInputArgs_head_of_notlive (cfg : VideoConfig)
    (growingEnv audioOnly : Bool) (hlive : cfg.isLiveSource growingEnv = false) :
    (buildInputArgs cfg growingEnv audioOnly).head? = some "-re" := by
  unfold buildInputArgs
  rcases hd : deviceInputArgs (cfg.sourceType growingEnv) cfg.file_path
      cfg.fps audioOnly with ⟨dargs, path⟩
  simp [hlive, hd]

/-- C5 (amended).  The pacing flag `-re` is prepended (as the first input
argument) exactly when the source is not live: FILE and GROWING_FILE sources
get it; LIVE_STREAM sources — including remote HTTP(S) — and DEVICE sources
do not. -/
theorem pacing_flag_C5 (cfg : VideoConfig) (growingEnv audioOnly : Bool) :
    (buildInputArgs cfg growingEnv audioOnly).head? = some "-re"
      ↔ cfg.isLiveSource growingEnv = false := by
  by_cases hlive : cfg.isLiveSource growingEnv
  · simp [buildInputArgs_head_of_live cfg growingEnv audioOnly hlive, hlive]
  · have h' : cfg.isLiveSource growingEnv = false := by
      simpa using hlive
    simp [buildInputArgs_head_of_notlive cfg growingEnv audioOnly h', h']

/-! Claim C7: quality versus explicit resolution for the scale filter. -/

/-- C7 counterexample.  With `quality = 1.0` (effective scale `1.0`, not
`< 1.0`) and an explicit resolution both configured, the code's scale
arguments come from the explicit resolution — with no resolution configured
they would be empty — so the explicit resolution is *not* ignored at
`q = 1.0`, contrary to the claim. -/
theorem scale_priority_C7_counterexample :
    ({ quality := some 1, resolution := some "1280x720" } : VideoConfig).quality = some 1
    ∧ ({ quality := some 1, resolution := some "1280x720" } : VideoConfig).resolution
        = some "1280x720"
    ∧ outputScaleArgs { quality := some 1, resolution := some "1280x720" }
        = ["-vf", "scale=1280:720"]
    ∧ outputScaleArgs { quality := some 1, resolution := some "1280x720" }
        = resolutionScaleArgs (some "1280x720")
    ∧ outputScaleArgs { quality := some 1, resolution := none } = [] := by
  have hs : ∀ r : Option String,
      ({ quality := some 1, resolution := r } : VideoConfig).effectiveScale = some 1 := by
    intro r
    simp only [VideoConfig.effectiveScale]
    rw [clamp01_eq zero_le_one le_rfl]
    norm_num
  have hmain : ∀ r : Option String,
      outputScaleArgs { quality := some 1, resolution := r }
        = resolutionScaleArgs r := by
    intro r
    unfold outputScaleArgs
    rw [hs r]
    simp only
    rw [if_neg (lt_irrefl 1)]
  refine ⟨rfl, rfl, ?_, hmain _, ?_⟩
  · rw [hmain]; decide
  · rw [hmain]; rfl

/-- C7 (amended).  When both the quality scalar and an explicit resolution
are configured: for every `q ∈ [0,1)` the scale filter is derived from the
quality and the explicit resolution is ignored; at `q = 1.0` the effective
scale is `1.0`, the quality branch is skipped, and the explicit resolution is
applied instead. -/
theorem scale_priority_C7 (q : ℚ) (r : Option String) (h0 : 0 ≤ q) (h1 : q < 1) :
    outputScaleArgs { quality := some q, resolution := r }
        = ["-vf", "scale=trunc(iw*" ++ fixed4 (0.25 + q * 0.75)
            ++ "/2)*2:trunc(ih*" ++ fixed4 (0.25 + q * 0.75) ++ "/2)*2"]
    ∧ outputScaleArgs { quality := some q, resolution := r }
        = outputScaleArgs { quality := some q, resolution := none }
    ∧ outputScaleArgs { quality := some 1, resolution := r }
        = resolutionScaleArgs r := by
  have hs : ∀ rr : Option String,
      ({ quality := some q, resolution := rr } : VideoConfig).effectiveScale
        = some (0.25 + q * 0.75) := by
    intro rr
    simp only [VideoConfig.effectiveScale, clamp01_eq h0 h1.le]
  have hlt : (0.25 : ℚ) + q * 0.75 < 1 := by linarith
  have hq : ∀ rr : Option String,
      outputScaleArgs { quality := some q, resolution := rr }
        = ["-vf", "scale=trunc(iw*" ++ fixed4 (0.25 + q * 0.75)
            ++ "/2)*2:trunc(ih*" ++ fixed4 (0.25 + q * 0.75) ++ "/2)*2"] := by
    intro rr
    unfold outputScaleArgs
    rw [hs rr]
    simp only
    rw [if_pos hlt]
  have hone : ({ quality := some 1, resolution := r } : VideoConfig).effectiveScale
      = some 1 := by
    simp only [VideoConfig.effectiveScale]
    rw [clamp01_eq zero_le_one le_rfl]
    norm_num
  refine ⟨hq r, by rw [hq r, hq none], ?_⟩
  unfold outputScaleArgs
  rw [hone]
  simp only
  rw [if_neg (lt_irrefl 1)]

/-- C7 witness at `q = 0` with resolution `1280x720`. -/
theorem scale_priority_C7_witness :
    outputScaleArgs { quality := some 0, resolution := some "1280x720" }
        = ["-vf", "scale=trunc(iw*" ++ fixed4 (0.25 + 0 * 0.75)
            ++ "/2)*2:trunc(ih*" ++ fixed4 (0.25 + 0 * 0.75) ++ "/2)*2"]
    ∧ outputScaleArgs { quality := some 0, resolution := some "1280x720" }
        = outputScaleArgs { quality := some 0, resolution := none }
    ∧ outputScaleArgs { quality := some 1, resolution := some "1280x720" }
        = resolutionScaleArgs (some "1280x720") :=
  scale_priority_C7 0 (some "1280x720") le_rfl zero_lt_one

/-! Claims C2 and C10: the client-queue drop policy. -/

/-- C2 counterexample.  During a broadcast into a registered buffer that is
*not* full (one chunk queued, capacity 3), the code still drops the element
already in the buffer and counts it dropped — refuting "if the buffer is not
full, the chunk is enqueued and no element already in the buffer is
dropped". -/
theorem ring_buffer_C2_counterexample :
    c2Queue.queue.length < c2Queue.maxsize
    ∧ c2Queue.stats.frames_dropped = 0
    ∧ ((c2Manager.broadcastVideo "b").1.video_clients.map (fun p => p.2.queue))
        = [["b"]]
    ∧ ((c2Manager.broadcastVideo "b").1.video_clients.map
        (fun p => p.2.stats.frames_dropped)) = [1] := by
  decide

/-- C2 (amended).  Each enqueue into an active client buffer (as performed by
the broadcast loop) first drains *every* queued element — whether or not the
buffer is full — counting each drained element as one dropped chunk on the
per-client counter, then enqueues the new chunk, which always succeeds; an
inactive buffer is left unchanged and the enqueue reports failure. -/
theorem ring_buffer_C2 (cq : ClientQueue) (item : String)
    (h : cq.active = true) :
    (cq.putNowait item).1.queue = [item]
    ∧ (cq.putNowait item).1.stats.frames_dropped
        = cq.stats.frames_dropped + cq.queue.length
    ∧ (cq.putNowait item).2 = true
    ∧ (cq.putNowait item).1.stats.frames_sent = cq.stats.frames_sent + 1 := by
  rcases Nat.eq_zero_or_pos cq.queue.length with hz | hp
  · simp [ClientQueue.putNowait, h, hz, ClientStats.update]
  · simp [ClientQueue.putNowait, h, hp, ClientStats.update]

/-- C2 witness: enqueue into an active queue holding one chunk. -/
theorem ring_buffer_C2_witness :
    (c2WitnessQueue.putNowait "y").1.queue = ["y"]
    ∧ (c2WitnessQueue.putNowait "y").1.stats.frames_dropped
        = c2WitnessQueue.stats.frames_dropped + c2WitnessQueue.queue.length
    ∧ (c2WitnessQueue.putNowait "y").2 = true
    ∧ (c2WitnessQueue.putNowait "y").1.stats.frames_sent
        = c2WitnessQueue.stats.frames_sent + 1 :=
  ring_buffer_C2 c2WitnessQueue "y" rfl

/-- C10.  After every `put_nowait` on an active queue the queue holds exactly
the new item — at most one element, regardless of the configured `maxsize` —
because the put drains every already-queued element (each counted as
dropped) before enqueuing. -/
theorem single_chunk_C10 (cq : ClientQueue) (item : String)
    (h : cq.active = true) :
    (cq.putNowait item).1.queue.length ≤ 1
    ∧ (cq.putNowait item).1.queue = [item]
    ∧ (cq.putNowait item).1.stats.frames_dropped
        = cq.stats.frames_dropped + cq.queue.length := by
  rcases Nat.eq_zero_or_pos cq.queue.length with hz | hp
  · simp [ClientQueue.putNowait, h, hz, ClientStats.update]
  · simp [ClientQueue.putNowait, h, hp, ClientStats.update]

/-- C10 witness: a queue of two chunks and capacity 5 ends with one
element. -/
theorem single_chunk_C10_witness :
    (c10WitnessQueue.putNowait "r").1.queue.length ≤ 1
    ∧ (c10WitnessQueue.putNowait "r").1.queue = ["r"]
    ∧ (c10WitnessQueue.putNowait "r").1.stats.frames_dropped
        = c10WitnessQueue.stats.frames_dropped + c10WitnessQueue.queue.length :=
  single_chunk_C10 c10WitnessQueue "r" rfl

/-! Claim C8: the stats endpoint payload. -/

/-- C8 counterexample.  At a concrete snapshot the stats object's `stream`
field has keys {elapsed_seconds, video_frames, audio_chunks, video_timestamp,
audio_timestamp, sync_drift} — no `chunks_sent`/`bytes_sent`; `connections`
has keys {video_clients, audio_clients, total_clients, max_clients,
frames_dropped} with no boolean-valued (init-cached) flag at all; `config`
has keys {video_fps, audio_sample_rate} — no CRF, no audio bitrate. -/
theorem stats_fields_C8_counterexample :
    (statsResponse BroadcasterState.RUNNING c8Stats 7 {} {} {}).status = 200
    ∧ (statsResponse BroadcasterState.RUNNING c8Stats 7 {} {} {}).contentType
        = "application/json"
    ∧ (jsonGet (statsPayload BroadcasterState.RUNNING c8Stats 7 {} {} {})
        "stream").map jsonKeys
        = some ["elapsed_seconds", "video_frames", "audio_chunks",
                "video_timestamp", "audio_timestamp", "sync_drift"]
    ∧ (jsonGet (statsPayload BroadcasterState.RUNNING c8Stats 7 {} {} {})
        "connections").map jsonKeys
        = some ["video_clients", "audio_clients", "total_clients",
                "max_clients", "frames_dropped"]
    ∧ (jsonGet (statsPayload BroadcasterState.RUNNING c8Stats 7 {} {} {})
        "config").map jsonKeys
        = some ["video_fps", "audio_sample_rate"]
    ∧ (jsonGet (statsPayload BroadcasterState.RUNNING c8Stats 7 {} {} {})
        "connections").map jsonHasBoolField = some false
    ∧ "bytes_sent" ∉ (((jsonGet (statsPayload BroadcasterState.RUNNING
        c8Stats 7 {} {} {}) "stream").map jsonKeys).getD [])
    ∧ "chunks_sent" ∉ (((jsonGet (statsPayload BroadcasterState.RUNNING
        c8Stats 7 {} {} {}) "stream").map jsonKeys).getD []) := by
  refine ⟨rfl, rfl, rfl, rfl, rfl, rfl, ?_, ?_⟩ <;> decide

/-- C8 (amended).  `GET /stats` always responds `200` with Content-Type
`application/json`; the payload has fields broadcaster {state, running},
stream {elapsed_seconds, video_frames, audio_chunks, video_timestamp,
audio_timestamp, sync_drift}, connections {video_clients, audio_clients,
total_clients, max_clients, frames_dropped} (no init-cached flag), and
config {video_fps, audio_sample_rate}. -/
theorem stats_endpoint_C8 (state : BroadcasterState) (st : StreamStats)
    (elapsed : ℚ) (m : ConnectionManager) (vcfg : VideoConfig)
    (acfg : AudioConfig) :
    (statsResponse state st elapsed m vcfg acfg).status = 200
    ∧ (statsResponse state st elapsed m vcfg acfg).contentType
        = "application/json"
    ∧ jsonKeys (statsResponse state st elapsed m vcfg acfg).payload
        = ["broadcaster", "stream", "connections", "config"]
    ∧ (jsonGet (statsResponse state st elapsed m vcfg acfg).payload
        "broadcaster").map jsonKeys = some ["state", "running"]
    ∧ (jsonGet (statsResponse state st elapsed m vcfg acfg).payload
        "stream").map jsonKeys
        = some ["elapsed_seconds", "video_frames", "audio_chunks",
                "video_timestamp", "audio_timestamp", "sync_drift"]
    ∧ (jsonGet (statsResponse state st elapsed m vcfg acfg).payload
        "connections").map jsonKeys
        = some ["video_clients", "audio_clients", "total_clients",
                "max_clients", "frames_dropped"]
    ∧ (jsonGet (statsResponse state st elapsed m vcfg acfg).payload
        "config").map jsonKeys = some ["video_fps", "audio_sample_rate"] :=
  ⟨rfl, rfl, rfl, rfl, rfl, rfl, rfl⟩

/-! Claim C9: static-file path traversal. -/

/-- C9 failing input.  With the public directory `/app/public`, an existing
sibling file `/app/publicX`, and the request path `/../publicX`, the
normalized path escapes the public directory, yet the prefix check (a plain
string `startswith` with no path-separator boundary) accepts it and the
handler serves the outside file with `200` — the spec's `403`-and-never-serve
guarantee is violated, against the code's own "Prevent directory traversal"
intent. -/
theorem static_traversal_C9 :
    serveStatic ["app", "public"] [["app", "publicX"]] "/../publicX"
      = { status := 200, contentType := "application/octet-stream",
          servedFile := some ["app", "publicX"] }
    ∧ isWithinDir ["app", "public"] ["app", "publicX"] = false := by
  decide

/-! Claim C1: the `/stream` response (spec-modelled handler). -/

/-- Auxiliary: body bytes of the media tail of the stream response. -/
theorem bodyBytes_map_chunks (chunks : List String) :
    bodyBytes (chunks.map (fun c => AsgiMessage.body c true)
        ++ [AsgiMessage.body "" false])
      = strJoin chunks := by
  induction chunks with
  | nil => rfl
  | cons s rest ih => simp [bodyBytes, strJoin, ih]

/-- C1.  Every admitted `/stream` client gets a `200` response whose headers
carry `Content-Type: video/mp4`, `Cache-Control: no-cache, no-store` and
`Access-Control-Allow-Origin: *` with no `Content-Length`; once the cached
init segment is available the body is exactly that init segment followed by
the raw media chunks in order. -/
theorem stream_response_C1 (admitted : Bool) (initSeg : Option String)
    (chunks : List String) (h : admitted = true) :
    (httpStreamMessages admitted initSeg chunks).head?
        = some (AsgiMessage.start 200 streamHeaders)
    ∧ streamHeaders.lookup "content-type" = some "video/mp4"
    ∧ streamHeaders.lookup "cache-control" = some "no-cache, no-store"
    ∧ streamHeaders.lookup "access-control-allow-origin" = some "*"
    ∧ streamHeaders.lookup "content-length" = none
    ∧ (∀ seg, initSeg = some seg →
        httpStreamMessages admitted initSeg chunks
          = AsgiMessage.start 200 streamHeaders
              :: AsgiMessage.body seg true
              :: (chunks.map (fun c => AsgiMessage.body c true)
                  ++ [AsgiMessage.body "" false])
        ∧ bodyBytes (httpStreamMessages admitted initSeg chunks)
            = seg ++ strJoin chunks) := by
  subst h
  refine ⟨?_, rfl, rfl, rfl, rfl, ?_⟩
  · cases initSeg <;> rfl
  · intro seg hseg
    subst hseg
    exact ⟨rfl, by simp [httpStreamMessages, bodyBytes, bodyBytes_map_chunks]⟩

/-- C1 witness: an admitted client with init segment `"INIT"` and two media
chunks. -/
theorem stream_response_C1_witness :
    (httpStreamMessages true (some "INIT") ["m1", "m2"]).head?
        = some (AsgiMessage.start 200 streamHeaders)
    ∧ streamHeaders.lookup "content-type" = some "video/mp4"
    ∧ streamHeaders.lookup "cache-control" = some "no-cache, no-store"
    ∧ streamHeaders.lookup "access-control-allow-origin" = some "*"
    ∧ streamHeaders.lookup "content-length" = none
    ∧ (∀ seg, (some "INIT" : Option String) = some seg →
        httpStreamMessages true (some "INIT") ["m1", "m2"]
          = AsgiMessage.start 200 streamHeaders
              :: AsgiMessage.body seg true
              :: (["m1", "m2"].map (fun c => AsgiMessage.body c true)
                  ++ [AsgiMessage.body "" false])
        ∧ bodyBytes (httpStreamMessages true (some "INIT") ["m1", "m2"])
            = seg ++ strJoin ["m1", "m2"]) :=
  stream_response_C1 true (some "INIT") ["m1", "m2"] rfl

/-! Claim C3: admission invariant of the connection manager. -/

/-- Removing a present key from a registry with unique keys removes exactly
one entry. -/
theorem length_filter_ne_of_mem {l : List (ℕ × ClientQueue)} {cid : ℕ}
    (hnd : (l.map Prod.fst).Nodup)
    (hmem : l.any (fun p => p.1 = cid) = true) :
    (l.filter (fun p => p.1 ≠ cid)).length + 1 = l.length := by
  induction l with
  | nil => simp at hmem
  | cons a t ih =>
      simp only [List.map_cons, List.nodup_cons] at hnd
      obtain ⟨ha, hnd'⟩ := hnd
      by_cases hac : a.1 = cid
      · have ht : t.filter (fun p => decide (p.1 ≠ cid)) = t := by
          apply List.filter_eq_self.mpr
          intro p hp
          simp only [decide_eq_true_eq]
          intro hpc
          exact ha (hac ▸ hpc ▸ List.mem_map_of_mem Prod.fst hp)
        have hpred : ¬ (decide (a.1 ≠ cid) = true) := by simp [hac]
        rw [List.filter_cons, if_neg hpred, ht, List.length_cons]
      · have hmem' : t.any (fun p => p.1 = cid) = true := by
          simp only [List.any_cons, Bool.or_eq_true, decide_eq_true_eq] at hmem
          rcases hmem with h | h
          · exact absurd h hac
          · exact h
        have hrec := ih hnd' hmem'
        have hpred : decide (a.1 ≠ cid) = true := by simp [hac]
        rw [List.filter_cons, if_pos hpred, List.length_cons, List.length_cons]
        omega

/-- Removing an absent key leaves the registry unchanged. -/
theorem filter_ne_of_not_mem (l : List (ℕ × ClientQueue)) (cid : ℕ)
    (hmem : l.any (fun p => p.1 = cid) = false) :
    l.filter (fun p => p.1 ≠ cid) = l := by
  apply List.filter_eq_self.mpr
  intro p hp
  simp only [decide_eq_true_eq]
  intro hpc
  have : ¬ (p.1 = cid) := by
    simp only [List.any_eq_false, decide_eq_true_eq] at hmem
    exact hmem p hp
  exact this hpc

/-- Behaviour of one registration: the invariant is preserved, `max_clients`
is unchanged, admission succeeds exactly below capacity, and the live count
grows by one exactly on success. -/
theorem registerClient_spec (m : ConnectionManager) (t : StreamType) (ms : ℕ)
    (hinv : MgrInv m) :
    MgrInv (m.registerClient t ms).1
    ∧ (m.registerClient t ms).1.max_clients = m.max_clients
    ∧ ((m.registerClient t ms).2.isSome = true
        ↔ m.totalClientCount < m.max_clients)
    ∧ (m.registerClient t ms).1.totalClientCount
        = (if m.totalClientCount < m.max_clients
            then m.totalClientCount + 1 else m.totalClientCount) := by
  obtain ⟨hvb, hab, hnd, hcap⟩ := hinv
  by_cases hfull : m.totalClientCount ≥ m.max_clients
  · have hn : ¬ m.totalClientCount < m.max_clients := by omega
    unfold ConnectionManager.registerClient
    rw [if_pos hfull]
    exact ⟨⟨hvb, hab, hnd, hcap⟩, rfl, by simp [hn], by rw [if_neg hn]⟩
  · have hlt : m.totalClientCount < m.max_clients := by omega
    have hfresh : m.nextId ∉ m.video_clients.map Prod.fst
        ++ m.audio_clients.map Prod.fst := by
      simp only [List.mem_append, List.mem_map]
      rintro (⟨p, hp, hfst⟩ | ⟨p, hp, hfst⟩)
      · exact absurd (hfst ▸ hvb p hp) (lt_irrefl _)
      · exact absurd (hfst ▸ hab p hp) (lt_irrefl _)
    unfold ConnectionManager.registerClient
    rw [if_neg hfull]
    cases t
    · refine ⟨⟨?_, ?_, ?_, ?_⟩, rfl, by simp [hlt], ?_⟩
      · intro p hp
        rcases List.mem_append.mp hp with hp' | hp'
        · exact Nat.lt_succ_of_lt (hvb p hp')
        · simp only [List.mem_singleton] at hp'
          subst hp'
          exact Nat.lt_succ_self _
      · intro p hp
        exact Nat.lt_succ_of_lt (hab p hp)
      · simp only [List.map_append, List.map_cons, List.map_nil,
          List.append_assoc, List.singleton_append]
        rw [List.nodup_middle]
        exact List.nodup_cons.mpr ⟨hfresh, hnd⟩
      · simp only [ConnectionManager.totalClientCount,
          ConnectionManager.videoClientCount,
          ConnectionManager.audioClientCount, List.length_append,
          List.length_cons, List.length_nil] at *
        omega
      · rw [if_pos hlt]
        simp only [ConnectionManager.totalClientCount,
          ConnectionManager.videoClientCount,
          ConnectionManager.audioClientCount, List.length_append,
          List.length_cons, List.length_nil]
        omega
    · refine ⟨⟨?_, ?_, ?_, ?_⟩, rfl, by simp [hlt], ?_⟩
      · intro p hp
        exact Nat.lt_succ_of_lt (hvb p hp)
      · intro p hp
        rcases List.mem_append.mp hp with hp' | hp'
        · exact Nat.lt_succ_of_lt (hab p hp')
        · simp only [List.mem_singleton] at hp'
          subst hp'
          exact Nat.lt_succ_self _
      · simp only [List.map_append, List.map_cons, List.map_nil]
        rw [← List.append_assoc, List.nodup_middle]
        rw [List.nodup_cons]
        refine ⟨by simpa using hfresh, by simpa using hnd⟩
      · simp only [ConnectionManager.totalClientCount,
          ConnectionManager.videoClientCount,
          ConnectionManager.audioClientCount, List.length_append,
          List.length_cons, List.length_nil] at *
        omega
      · rw [if_pos hlt]
        simp only [ConnectionManager.totalClientCount,
          ConnectionManager.videoClientCount,
          ConnectionManager.audioClientCount, List.length_append,
          List.length_cons, List.length_nil]
        omega

/-- Behaviour of one unregistration: the invariant is preserved,
`max_clients` is unchanged, and the live count drops by one exactly when the
id was registered. -/
theorem unregisterClient_spec (m : ConnectionManager) (t : StreamType)
    (cid : ℕ) (hinv : MgrInv m) :
    MgrInv (m.unregisterClient t cid)
    ∧ (m.unregisterClient t cid).max_clients = m.max_clients
    ∧ (m.hasClient t cid = true →
        (m.unregisterClient t cid).totalClientCount + 1 = m.totalClientCount)
    ∧ (m.hasClient t cid = false →
        (m.unregisterClient t cid).totalClientCount = m.totalClientCount) := by
  obtain ⟨hvb, hab, hnd, hcap⟩ := hinv
  have hndv : (m.video_clients.map Prod.fst).Nodup :=
    (List.nodup_append.mp hnd).1
  have hnda : (m.audio_clients.map Prod.fst).Nodup :=
    (List.nodup_append.mp hnd).2.1
  cases t
  · have hsub : ((m.video_clients.filter (fun p => p.1 ≠ cid)).map Prod.fst
        ++ m.audio_clients.map Prod.fst).Sublist
        (m.video_clients.map Prod.fst ++ m.audio_clients.map Prod.fst) :=
      List.Sublist.append_right
        (List.Sublist.map Prod.fst (List.filter_sublist _)) _
    refine ⟨⟨?_, hab, List.Nodup.sublist hsub hnd, ?_⟩, rfl, ?_, ?_⟩
    · intro p hp
      exact hvb p (List.mem_of_mem_filter hp)
    · simp only [ConnectionManager.totalClientCount,
        ConnectionManager.videoClientCount,
        ConnectionManager.audioClientCount, ConnectionManager.unregisterClient]
      have := List.length_filter_le (fun p => decide (p.1 ≠ cid))
        m.video_clients
      simp only [ConnectionManager.totalClientCount,
        ConnectionManager.videoClientCount,
        ConnectionManager.audioClientCount] at hcap
      omega
    · intro hc
      have := length_filter_ne_of_mem hndv hc
      simp only [ConnectionManager.totalClientCount,
        ConnectionManager.videoClientCount,
        ConnectionManager.audioClientCount, ConnectionManager.unregisterClient]
      omega
    · intro hc
      have := filter_ne_of_not_mem m.video_clients cid hc
      simp only [ConnectionManager.totalClientCount,
        ConnectionManager.videoClientCount,
        ConnectionManager.audioClientCount, ConnectionManager.unregisterClient]
      rw [this]
  · have hsub : (m.video_clients.map Prod.fst
        ++ (m.audio_clients.filter (fun p => p.1 ≠ cid)).map Prod.fst).Sublist
        (m.video_clients.map Prod.fst ++ m.audio_clients.map Prod.fst) :=
      List.Sublist.append_left
        (List.Sublist.map Prod.fst (List.filter_sublist _)) _
    refine ⟨⟨hvb, ?_, List.Nodup.sublist hsub hnd, ?_⟩, rfl, ?_, ?_⟩
    · intro p hp
      exact hab p (List.mem_of_mem_filter hp)
    · simp only [ConnectionManager.totalClientCount,
        ConnectionManager.videoClientCount,
        ConnectionManager.audioClientCount, ConnectionManager.unregisterClient]
      have := List.length_filter_le (fun p => decide (p.1 ≠ cid))
        m.audio_clients
      simp only [ConnectionManager.totalClientCount,
        ConnectionManager.videoClientCount,
        ConnectionManager.audioClientCount] at hcap
      omega
    · intro hc
      have := length_filter_ne_of_mem hnda hc
      simp only [ConnectionManager.totalClientCount,
        ConnectionManager.videoClientCount,
        ConnectionManager.audioClientCount, ConnectionManager.unregisterClient]
      omega
    · intro hc
      have := filter_ne_of_not_mem m.audio_clients cid hc
      simp only [ConnectionManager.totalClientCount,
        ConnectionManager.videoClientCount,
        ConnectionManager.audioClientCount, ConnectionManager.unregisterClient]
      rw [this]

/-- Counting a trace: one unregister operation per `unreg` head. -/
theorem numUnregs_cons_reg (t : StreamType) (ms : ℕ) (rest : List ConnOp) :
    numUnregs (ConnOp.reg t ms :: rest) = numUnregs rest := by
  simp [numUnregs, List.filter_cons]

/-- Counting a trace: the `unreg` head adds one. -/
theorem numUnregs_cons_unreg (t : StreamType) (cid : ℕ) (rest : List ConnOp) :
    numUnregs (ConnOp.unreg t cid :: rest) = numUnregs rest + 1 := by
  simp only [numUnregs, List.filter_cons, if_true, List.length_cons]

/-- Unfolding `runOps` over an admitted registration. -/
theorem runOps_cons_reg_pos (m : ConnectionManager) (t : StreamType) (ms : ℕ)
    (rest : List ConnOp) (hs : (m.registerClient t ms).2.isSome = true) :
    runOps m (ConnOp.reg t ms :: rest)
      = { runOps (m.registerClient t ms).1 rest with
          regOk := (runOps (m.registerClient t ms).1 rest).regOk + 1 } := by
  simp [runOps, hs]

/-- Unfolding `runOps` over a rejected registration. -/
theorem runOps_cons_reg_neg (m : ConnectionManager) (t : StreamType) (ms : ℕ)
    (rest : List ConnOp) (hs : (m.registerClient t ms).2.isSome = false) :
    runOps m (ConnOp.reg t ms :: rest)
      = { runOps (m.registerClient t ms).1 rest with
          regRej := (runOps (m.registerClient t ms).1 rest).regRej + 1 } := by
  simp [runOps, hs]

/-- Unfolding `runOps` over an unregistration of a live id. -/
theorem runOps_cons_unreg_pos (m : ConnectionManager) (t : StreamType)
    (cid : ℕ) (rest : List ConnOp) (hc : m.hasClient t cid = true) :
    runOps m (ConnOp.unreg t cid :: rest)
      = { runOps (m.unregisterClient t cid) rest with
          unregHit := (runOps (m.unregisterClient t cid) rest).unregHit + 1 } := by
  simp [runOps, hc]

/-- Unfolding `runOps` over an unregistration of a dead id. -/
theorem runOps_cons_unreg_neg (m : ConnectionManager) (t : StreamType)
    (cid : ℕ) (rest : List ConnOp) (hc : m.hasClient t cid = false) :
    runOps m (ConnOp.unreg t cid :: rest)
      = { runOps (m.unregisterClient t cid) rest with
          unregMiss := (runOps (m.unregisterClient t cid) rest).unregMiss + 1 } := by
  simp [runOps, hc]

/-- Trace induction: running any operation list from a well-formed manager
preserves the invariant, keeps `max_clients`, and yields the exact live-count
accounting. -/
theorem runOps_spec (ops : List ConnOp) (m : ConnectionManager)
    (hinv : MgrInv m) :
    MgrInv (runOps m ops).mgr
    ∧ (runOps m ops).mgr.max_clients = m.max_clients
    ∧ ((runOps m ops).mgr.totalClientCount : ℤ)
        = (m.totalClientCount : ℤ) + (runOps m ops).regOk
            - (runOps m ops).unregHit
    ∧ (runOps m ops).unregHit + (runOps m ops).unregMiss = numUnregs ops := by
  induction ops generalizing m with
  | nil =>
      exact ⟨hinv, rfl, by simp [runOps], by simp [runOps, numUnregs]⟩
  | cons op rest ih =>
      cases op with
      | reg t ms =>
          obtain ⟨hinv', hmax', hsome, hcount⟩ := registerClient_spec m t ms hinv
          obtain ⟨ih1, ih2, ih3, ih4⟩ := ih (m.registerClient t ms).1 hinv'
          by_cases hs : (m.registerClient t ms).2.isSome = true
          · have hrun := runOps_cons_reg_pos m t ms rest hs
            have hmgr : (runOps m (ConnOp.reg t ms :: rest)).mgr
                = (runOps (m.registerClient t ms).1 rest).mgr := by rw [hrun]
            have hok : (runOps m (ConnOp.reg t ms :: rest)).regOk
                = (runOps (m.registerClient t ms).1 rest).regOk + 1 := by
              rw [hrun]
            have hhit : (runOps m (ConnOp.reg t ms :: rest)).unregHit
                = (runOps (m.registerClient t ms).1 rest).unregHit := by
              rw [hrun]
            have hmiss : (runOps m (ConnOp.reg t ms :: rest)).unregMiss
                = (runOps (m.registerClient t ms).1 rest).unregMiss := by
              rw [hrun]
            have hc : ((m.registerClient t ms).1.totalClientCount : ℤ)
                = m.totalClientCount + 1 := by
              rw [hcount, if_pos (hsome.mp hs)]
              push_cast
              ring
            refine ⟨hmgr ▸ ih1, by rw [hmgr, ih2, hmax'], ?_, ?_⟩
            · rw [hmgr, hok, hhit]
              omega
            · rw [hhit, hmiss, numUnregs_cons_reg]
              exact ih4
          · have hs' : (m.registerClient t ms).2.isSome = false := by
              simpa using hs
            have hrun := runOps_cons_reg_neg m t ms rest hs'
            have hmgr : (runOps m (ConnOp.reg t ms :: rest)).mgr
                = (runOps (m.registerClient t ms).1 rest).mgr := by rw [hrun]
            have hok : (runOps m (ConnOp.reg t ms :: rest)).regOk
                = (runOps (m.registerClient t ms).1 rest).regOk := by rw [hrun]
            have hhit : (runOps m (ConnOp.reg t ms :: rest)).unregHit
                = (runOps (m.registerClient t ms).1 rest).unregHit := by
              rw [hrun]
            have hmiss : (runOps m (ConnOp.reg t ms :: rest)).unregMiss
                = (runOps (m.registerClient t ms).1 rest).unregMiss := by
              rw [hrun]
            have hc : ((m.registerClient t ms).1.totalClientCount : ℤ)
                = m.totalClientCount := by
              rw [hcount, if_neg]
              intro hlt
              exact absurd (hsome.mpr hlt) (by simp [hs'])
            refine ⟨hmgr ▸ ih1, by rw [hmgr, ih2, hmax'], ?_, ?_⟩
            · rw [hmgr, hok, hhit]
              omega
            · rw [hhit, hmiss, numUnregs_cons_reg]
              exact ih4
      | unreg t cid =>
          obtain ⟨hinv', hmax', hhitc, hmissc⟩ :=
            unregisterClient_spec m t cid hinv
          obtain ⟨ih1, ih2, ih3, ih4⟩ := ih (m.unregisterClient t cid) hinv'
          by_cases hc : m.hasClient t cid = true
          · have hrun := runOps_cons_unreg_pos m t cid rest hc
            have hmgr : (runOps m (ConnOp.unreg t cid :: rest)).mgr
                = (runOps (m.unregisterClient t cid) rest).mgr := by rw [hrun]
            have hok : (runOps m (ConnOp.unreg t cid :: rest)).regOk
                = (runOps (m.unregisterClient t cid) rest).regOk := by rw [hrun]
            have hhit : (runOps m (ConnOp.unreg t cid :: rest)).unregHit
                = (runOps (m.unregisterClient t cid) rest).unregHit + 1 := by
              rw [hrun]
            have hmiss : (runOps m (ConnOp.unreg t cid :: rest)).unregMiss
                = (runOps (m.unregisterClient t cid) rest).unregMiss := by
              rw [hrun]
            have hdrop := hhitc hc
            refine ⟨hmgr ▸ ih1, by rw [hmgr, ih2, hmax'], ?_, ?_⟩
            · rw [hmgr, hok, hhit]
              omega
            · rw [hhit, hmiss, numUnregs_cons_unreg]
              omega
          · have hc' : m.hasClient t cid = false := by simpa using hc
            have hrun := runOps_cons_unreg_neg m t cid rest hc'
            have hmgr : (runOps m (ConnOp.unreg t cid :: rest)).mgr
                = (runOps (m.unregisterClient t cid) rest).mgr := by rw [hrun]
            have hok : (runOps m (ConnOp.unreg t cid :: rest)).regOk
                = (runOps (m.unregisterClient t cid) rest).regOk := by rw [hrun]
            have hhit : (runOps m (ConnOp.unreg t cid :: rest)).unregHit
                = (runOps (m.unregisterClient t cid) rest).unregHit := by
              rw [hrun]
            have hmiss : (runOps m (ConnOp.unreg t cid :: rest)).unregMiss
                = (runOps (m.unregisterClient t cid) rest).unregMiss + 1 := by
              rw [hrun]
            have hsame := hmissc hc'
            refine ⟨hmgr ▸ ih1, by rw [hmgr, ih2, hmax'], ?_, ?_⟩
            · rw [hmgr, hok, hhit]
              omega
            · rw [hhit, hmiss, numUnregs_cons_unreg]
              omega

/-- C3.  From a fresh manager with capacity `maxc`, for any
register/unregister trace in which every unregistration names a live buffer:
the live buffer count equals successful registrations minus unregistrations
and never exceeds `maxc`; registered ids are unique; a further registration
succeeds (returning a handle) exactly when the live count is below `maxc`;
and the stream handler responds `503` exactly when the manager is at
capacity. -/
theorem connection_admission_C3 (maxc : ℕ) (ops : List ConnOp)
    (cfg : VideoConfig)
    (hwf : (runOps { max_clients := maxc } ops).unregMiss = 0) :
    ((runOps { max_clients := maxc } ops).mgr.totalClientCount : ℤ)
        = (runOps { max_clients := maxc } ops).regOk - numUnregs ops
    ∧ (runOps { max_clients := maxc } ops).mgr.totalClientCount ≤ maxc
    ∧ ((runOps { max_clients := maxc } ops).mgr.video_clients.map Prod.fst
        ++ (runOps { max_clients := maxc } ops).mgr.audio_clients.map
          Prod.fst).Nodup
    ∧ (∀ t ms,
        ((runOps { max_clients := maxc } ops).mgr.registerClient t ms).2.isSome
            = true
          ↔ (runOps { max_clients := maxc } ops).mgr.totalClientCount < maxc)
    ∧ (videoHandleStatus (runOps { max_clients := maxc } ops).mgr cfg = 503
        ↔ maxc ≤ (runOps { max_clients := maxc } ops).mgr.totalClientCount) := by
  have hinv0 : MgrInv { max_clients := maxc } := by
    refine ⟨by simp, by simp, by simp, ?_⟩
    simp [ConnectionManager.totalClientCount,
      ConnectionManager.videoClientCount, ConnectionManager.audioClientCount]
  obtain ⟨hinv, hmax, hcount, hunreg⟩ :=
    runOps_spec ops { max_clients := maxc } hinv0
  have h0 : ({ max_clients := maxc } : ConnectionManager).totalClientCount
      = 0 := rfl
  have hiff : ∀ t ms,
      ((runOps { max_clients := maxc } ops).mgr.registerClient t ms).2.isSome
          = true
        ↔ (runOps { max_clients := maxc } ops).mgr.totalClientCount < maxc := by
    intro t ms
    have := (registerClient_spec (runOps { max_clients := maxc } ops).mgr
      t ms hinv).2.2.1
    rwa [hmax] at this
  refine ⟨by rw [h0] at hcount; omega, ?_, hinv.2.2.1, hiff, ?_⟩
  · have := hinv.2.2.2
    rwa [hmax] at this
  · rcases hreg : ((runOps { max_clients := maxc } ops).mgr.registerClient
        StreamType.VIDEO cfg.frame_buffer_size).2 with _ | cid
    · have hge : ¬ (runOps { max_clients := maxc } ops).mgr.totalClientCount
          < maxc := by
        intro hlt
        have := (hiff StreamType.VIDEO cfg.frame_buffer_size).mpr hlt
        rw [hreg] at this
        simp at this
      simp only [videoHandleStatus, hreg]
      constructor
      · intro _
        omega
      · intro _
        trivial
    · have hlt : (runOps { max_clients := maxc } ops).mgr.totalClientCount
          < maxc := by
        apply (hiff StreamType.VIDEO cfg.frame_buffer_size).mp
        rw [hreg]
        rfl
      simp only [videoHandleStatus, hreg]
      constructor
      · intro h200
        exact absurd h200 (by decide)
      · intro hle
        omega

/-- C3 witness: capacity 2, two admissions, one rejection, one
unregistration. -/
theorem connection_admission_C3_witness :
    ((runOps { max_clients := 2 } c3Ops).mgr.totalClientCount : ℤ)
        = (runOps { max_clients := 2 } c3Ops).regOk - numUnregs c3Ops
    ∧ (runOps { max_clients := 2 } c3Ops).mgr.totalClientCount ≤ 2
    ∧ ((runOps { max_clients := 2 } c3Ops).mgr.video_clients.map Prod.fst
        ++ (runOps { max_clients := 2 } c3Ops).mgr.audio_clients.map
          Prod.fst).Nodup
    ∧ (∀ t ms,
        ((runOps { max_clients := 2 } c3Ops).mgr.registerClient t ms).2.isSome
            = true
          ↔ (runOps { max_clients := 2 } c3Ops).mgr.totalClientCount < 2)
    ∧ (videoHandleStatus (runOps { max_clients := 2 } c3Ops).mgr {} = 503
        ↔ 2 ≤ (runOps { max_clients := 2 } c3Ops).mgr.totalClientCount) :=
  connection_admission_C3 2 c3Ops {} (by decide)

end Livestream
